import Mathlib

/-!
A shallow embedding of the SurgeBox sequencing and persistence core
(src/core/GrooveboxProject.{h,cpp}, src/core/SurgeBoxEngine.{h,cpp},
src/core/PatternModel.cpp), together with theorems checking the
specification's claims about it.

Modelling conventions:
* C++ `double` and `float` values are modelled as exact rationals (`ℚ`);
  all beat arithmetic of the sequencer is plain field arithmetic on doubles,
  so the rational model mirrors it exactly.
* `static_cast<int>` on a double truncates toward zero: `ratTrunc`.
* `std::fmod` is `cppFmod` (sign follows the dividend, truncated quotient).
* `std::sort` is modelled by the stable `List.insertionSort` on the
  negation of the C++ strict comparator (any correct `std::sort`
  implementation produces a list sorted in this sense; the widely deployed
  implementations are stable on the tiny, mostly-sorted inputs involved).
* `std::vector` / `std::array` / `std::string` become `List`/`String`;
  the fixed sizes (4 voices, 4 FX slots, 12 params) are stated as
  hypotheses where a theorem needs them.
* File streams and the TinyXML backend are external collaborators (spec
  section 1); a parsed project file is modelled as its binary-header fields
  plus the parsed XML element tree (`XElem`), with an `Option`/`LoadInput`
  layer for unreadable or unparseable input.
-/

namespace SurgeBox

/-- NUM_VOICES from GrooveboxProject.h. -/
def NUM_VOICES : ℕ := 4

/-- NUM_GLOBAL_FX from GrooveboxProject.h. -/
def NUM_GLOBAL_FX : ℕ := 4

/-- FX_PARAMS_PER_SLOT from GrooveboxProject.h. -/
def FX_PARAMS_PER_SLOT : ℕ := 12

/-- PROJECT_FORMAT_VERSION from GrooveboxProject.h. -/
def PROJECT_FORMAT_VERSION : ℕ := 1

/-- Truncation toward zero of a rational, i.e. C++ `static_cast<int>` on a
double (and the quotient used by `std::fmod`). -/
def ratTrunc (q : ℚ) : ℤ := if 0 ≤ q then ⌊q⌋ else -⌊-q⌋

/-- C++ `std::fmod x y`: `x - y * trunc (x / y)`. -/
def cppFmod (x y : ℚ) : ℚ := x - y * (ratTrunc (x / y) : ℚ)

/-- C++ `std::clamp v lo hi` on `int`. -/
def clampInt (v lo hi : ℤ) : ℤ := if v < lo then lo else if hi < v then hi else v

/-- MIDINote from GrooveboxProject.h, with the C++ member-initializer
defaults.  `pitch` and `velocity` are `uint8_t`, modelled as `ℕ`. -/
structure MIDINote where
  startBeat : ℚ := 0
  duration : ℚ := 1
  pitch : ℕ := 60
  velocity : ℕ := 100
deriving DecidableEq

/-- MIDINote::endBeat. -/
def MIDINote.endBeat (n : MIDINote) : ℚ := n.startBeat + n.duration

/-- MIDINote::operator<: primary key startBeat, tie-break pitch. -/
def MIDINote.ltNote (a b : MIDINote) : Prop :=
  a.startBeat < b.startBeat ∨ (a.startBeat = b.startBeat ∧ a.pitch < b.pitch)

/-- The negation of `MIDINote.ltNote` with the arguments swapped: the total
preorder with respect to which `std::sort (operator<)` leaves the notes
sorted. -/
def noteLE (a b : MIDINote) : Prop :=
  a.startBeat < b.startBeat ∨ (a.startBeat = b.startBeat ∧ a.pitch ≤ b.pitch)

instance : DecidableRel noteLE := fun a b =>
  inferInstanceAs (Decidable (_ ∨ _))

instance : IsTotal MIDINote noteLE := by
  constructor
  intro a b
  unfold noteLE
  rcases lt_trichotomy a.startBeat b.startBeat with h | h | h
  · exact Or.inl (Or.inl h)
  · rcases Nat.le_total a.pitch b.pitch with hp | hp
    · exact Or.inl (Or.inr ⟨h, hp⟩)
    · exact Or.inr (Or.inr ⟨h.symm, hp⟩)
  · exact Or.inr (Or.inl h)

instance : IsTrans MIDINote noteLE := by
  constructor
  intro a b c hab hbc
  unfold noteLE at *
  rcases hab with h1 | ⟨h1, p1⟩ <;> rcases hbc with h2 | ⟨h2, p2⟩
  · exact Or.inl (h1.trans h2)
  · exact Or.inl (h2 ▸ h1)
  · exact Or.inl (h1 ▸ h2)
  · exact Or.inr ⟨h1.trans h2, p1.trans p2⟩

/-- Pattern from GrooveboxProject.h (`bars` is a C++ `int`). -/
structure Pattern where
  notes : List MIDINote := []
  bars : ℤ := 4
  swing : ℚ := 0
deriving DecidableEq

/-- Pattern::lengthInBeats. -/
def Pattern.lengthInBeats (p : Pattern) : ℚ := (p.bars : ℚ) * 4

/-- Pattern::sortNotes: `std::sort(notes.begin(), notes.end())` using
MIDINote::operator<. -/
def Pattern.sortNotes (p : Pattern) : Pattern :=
  { p with notes := p.notes.insertionSort noteLE }

/-- Pattern::addNote: append, then re-sort. -/
def Pattern.addNote (p : Pattern) (start dur : ℚ) (pitch velocity : ℕ) : Pattern :=
  Pattern.sortNotes { p with notes := p.notes ++ [⟨start, dur, pitch, velocity⟩] }

/-- Pattern::removeNote: bounds-checked erase. -/
def Pattern.removeNote (p : Pattern) (index : ℕ) : Pattern :=
  if index < p.notes.length then
    { p with notes := p.notes.eraseIdx index }
  else p

/-- Pattern::clear. -/
def Pattern.clearNotes (p : Pattern) : Pattern := { p with notes := [] }

/-- Pattern::getNotesStartingInRange: notes with
`startBeat >= startBeat && startBeat < endBeat`. -/
def Pattern.getNotesStartingInRange (p : Pattern) (startBeat endBeat : ℚ) :
    List MIDINote :=
  p.notes.filter fun n =>
    decide (n.startBeat ≥ startBeat) && decide (n.startBeat < endBeat)

/-- Pattern::getNotesInRange: notes whose span strictly overlaps the range. -/
def Pattern.getNotesInRange (p : Pattern) (startBeat endBeat : ℚ) :
    List MIDINote :=
  p.notes.filter fun n =>
    decide (n.startBeat < endBeat) && decide (n.endBeat > startBeat)

/-- A note of the GUI-side PatternModel (a juce::ValueTree child): startBeat
and duration are doubles, pitch and velocity are C++ `int`s. -/
structure PMNote where
  startBeat : ℚ
  duration : ℚ
  pitch : ℤ
  velocity : ℤ
deriving DecidableEq

/-- The ordering PatternModel::sortNotes actually sorts by: startBeat only
(its `std::sort` comparator is `a.first < b.first`). -/
def pmStartLE (a b : PMNote) : Prop := a.startBeat ≤ b.startBeat

instance : DecidableRel pmStartLE := fun a b =>
  inferInstanceAs (Decidable (_ ≤ _))

instance : IsTotal PMNote pmStartLE :=
  ⟨fun a b => le_total a.startBeat b.startBeat⟩

instance : IsTrans PMNote pmStartLE :=
  ⟨fun _ _ _ h1 h2 => le_trans h1 h2⟩

/-- The (startBeat, pitch) lexicographic order the specification claims the
PatternModel keeps its notes sorted by. -/
def pmKeyLE (a b : PMNote) : Prop :=
  a.startBeat < b.startBeat ∨ (a.startBeat = b.startBeat ∧ a.pitch ≤ b.pitch)

instance : DecidableRel pmKeyLE := fun a b =>
  inferInstanceAs (Decidable (_ ∨ _))

/-- PatternModel from PatternModel.cpp: the note children of the value tree
in document order, plus the bars/swing properties. -/
structure PatternModel where
  bars : ℤ := 4
  swing : ℚ := 0
  notes : List PMNote := []
deriving DecidableEq

/-- PatternModel::sortNotes: `std::sort` of the children by startBeat only
(comparator `a.first < b.first`); equal start beats keep their previous
relative order. -/
def PatternModel.sortNotes (m : PatternModel) : PatternModel :=
  { m with notes := m.notes.insertionSort pmStartLE }

/-- PatternModel::addNote: append a child, then sortNotes. -/
def PatternModel.addNote (m : PatternModel) (startBeat duration : ℚ)
    (pitch velocity : ℤ) : PatternModel :=
  PatternModel.sortNotes
    { m with notes := m.notes ++ [⟨startBeat, duration, pitch, velocity⟩] }

/-- PatternModel::moveNote: in-range index updates startBeat and pitch, then
sortNotes; out-of-range is a no-op. -/
def PatternModel.moveNote (m : PatternModel) (index : ℤ)
    (newStartBeat : ℚ) (newPitch : ℤ) : PatternModel :=
  if 0 ≤ index ∧ index < (m.notes.length : ℤ) then
    PatternModel.sortNotes
      { m with notes := (List.modify
          (fun n => { n with startBeat := newStartBeat, pitch := newPitch })
          index.toNat m.notes) }
  else m

/-- A call that mutates note positions in a PatternModel (the operations
claim C4 quantifies over). -/
inductive PMOp where
  | add (startBeat duration : ℚ) (pitch velocity : ℤ)
  | move (index : ℤ) (newStartBeat : ℚ) (newPitch : ℤ)

/-- Apply one PatternModel mutation. -/
def PatternModel.applyOp (m : PatternModel) : PMOp → PatternModel
  | .add s d p v => m.addNote s d p v
  | .move i s p => m.moveNote i s p

/-- Apply a sequence of PatternModel mutations, oldest first. -/
def PatternModel.applyOps (m : PatternModel) (ops : List PMOp) : PatternModel :=
  ops.foldl PatternModel.applyOp m

/-- A TinyXML attribute value as the core uses it: set and queried as a
string, an int, or a double.  The XML text layer itself is an external
collaborator, so a value queried with the same type it was set with reads
back exactly; `queryInt`/`queryDouble` on a foreign file may also find
nothing (TIXML_WRONG_TYPE / TIXML_NO_ATTRIBUTE), which the `Option`
results model. -/
inductive AVal where
  | s (v : String)
  | i (v : ℤ)
  | d (v : ℚ)

/-- A parsed XML element: name, attributes, optional text content
(TiXmlElement::GetText), child elements in document order. -/
inductive XElem where
  | mk (name : String) (attrs : List (String × AVal)) (text : Option String)
      (children : List XElem)

/-- Element name. -/
def XElem.name : XElem → String
  | .mk n _ _ _ => n

/-- Element attributes. -/
def XElem.attrs : XElem → List (String × AVal)
  | .mk _ a _ _ => a

/-- Element text content (TiXmlElement::GetText; `none` when there is no
text child). -/
def XElem.text : XElem → Option String
  | .mk _ _ t _ => t

/-- Child elements. -/
def XElem.children : XElem → List XElem
  | .mk _ _ _ c => c

/-- Look up an attribute by name. -/
def XElem.attr? (el : XElem) (key : String) : Option AVal :=
  (el.attrs.find? fun p => p.1 == key).map Prod.snd

/-- TiXmlElement::QueryDoubleAttribute (an int-valued attribute also parses
as a double). -/
def XElem.queryDouble (el : XElem) (key : String) : Option ℚ :=
  match el.attr? key with
  | some (.d v) => some v
  | some (.i v) => some (v : ℚ)
  | _ => none

/-- TiXmlElement::QueryIntAttribute. -/
def XElem.queryInt (el : XElem) (key : String) : Option ℤ :=
  match el.attr? key with
  | some (.i v) => some v
  | _ => none

/-- TiXmlElement::Attribute (string form). -/
def XElem.attrString (el : XElem) (key : String) : Option String :=
  match el.attr? key with
  | some (.s v) => some v
  | _ => none

/-- TiXmlNode::FirstChildElement(name). -/
def XElem.firstChildElement (el : XElem) (n : String) : Option XElem :=
  el.children.find? fun c => c.name == n

/-- The FirstChildElement(name) / NextSiblingElement(name) iteration:
all children with the given name, in order. -/
def XElem.childrenNamed (el : XElem) (n : String) : List XElem :=
  el.children.filter fun c => c.name == n

/-- One lowercase hex digit, as produced by `snprintf("%02x")`. -/
def hexChar (n : ℕ) : Char :=
  if n < 10 then Char.ofNat (48 + n) else Char.ofNat (87 + n)

/-- The value of a hex digit accepted by `sscanf("%02x")` (lowercase,
uppercase or decimal), `none` for a non-hex character. -/
def hexDigitVal (c : Char) : Option ℕ :=
  if 48 ≤ c.toNat ∧ c.toNat ≤ 57 then some (c.toNat - 48)
  else if 97 ≤ c.toNat ∧ c.toNat ≤ 102 then some (c.toNat - 87)
  else if 65 ≤ c.toNat ∧ c.toNat ≤ 70 then some (c.toNat - 55)
  else none

/-- VoiceState::toXML patch encoding loop: each byte appends its two
lowercase hex digits. -/
def hexEncodeChars : List ℕ → List Char
  | [] => []
  | b :: rest => hexChar (b / 16) :: hexChar (b % 16) :: hexEncodeChars rest

/-- VoiceState::toXML patch encoding: each byte as two lowercase hex
characters. -/
def hexEncode (bytes : List ℕ) : String :=
  String.mk (hexEncodeChars bytes)

/-- The decode loop of VoiceState::fromXML: up to `size` iterations, each
consuming two characters; `sscanf("%02x")` parses the maximal hex prefix
(so a pair whose second character is not hex still yields its first digit,
and a pair whose first character is not hex is skipped); the loop stops
early when fewer than two characters remain. -/
def hexDecodeAux : ℕ → List Char → List ℕ
  | 0, _ => []
  | n + 1, c1 :: c2 :: rest =>
    match hexDigitVal c1, hexDigitVal c2 with
    | some a, some b => (16 * a + b) :: hexDecodeAux n rest
    | some a, none => a :: hexDecodeAux n rest
    | none, _ => hexDecodeAux n rest
  | _ + 1, [] => []
  | _ + 1, [_] => []

/-- VoiceState::fromXML patch decoding from the declared byte count and the
hex text. -/
def hexDecode (size : ℤ) (s : String) : List ℕ := hexDecodeAux size.toNat s.data

/-- MIDINote::toXML. -/
def MIDINote.toXML (n : MIDINote) : XElem :=
  .mk "note"
    [("start", .d n.startBeat), ("duration", .d n.duration),
     ("pitch", .i (n.pitch : ℤ)), ("velocity", .i (n.velocity : ℤ))]
    none []

/-- MIDINote::fromXML: missing attributes keep the local defaults
(start 0, duration 1, pitch 60, velocity 100); pitch is clamped into
[0,127], velocity into [1,127]. -/
def MIDINote.fromXML (el : XElem) : MIDINote :=
  { startBeat := (el.queryDouble "start").getD 0
    duration := (el.queryDouble "duration").getD 1
    pitch := (clampInt ((el.queryInt "pitch").getD 60) 0 127).toNat
    velocity := (clampInt ((el.queryInt "velocity").getD 100) 1 127).toNat }

/-- Pattern::toXML. -/
def Pattern.toXML (p : Pattern) : XElem :=
  .mk "pattern" [("bars", .i p.bars), ("swing", .d p.swing)] none
    (p.notes.map MIDINote.toXML)

/-- Pattern::fromXML: clear the notes, read bars/swing (keeping the old
values when absent), read every `note` child, then sortNotes. -/
def Pattern.fromXML (el : XElem) (p : Pattern) : Pattern :=
  { notes := ((el.childrenNamed "note").map MIDINote.fromXML).insertionSort noteLE
    bars := (el.queryInt "bars").getD p.bars
    swing := (el.queryDouble "swing").getD p.swing }

/-- GlobalFXSlot from GrooveboxProject.h (params zero-filled by the
constructor). -/
structure GlobalFXSlot where
  type : ℤ := 0
  params : List ℚ := [0, 0, 0, 0, 0, 0, 0, 0, 0, 0, 0, 0]
  enabled : Bool := true
deriving DecidableEq

/-- GlobalFXSlot::toXML. -/
def GlobalFXSlot.toXML (s : GlobalFXSlot) (index : ℤ) : XElem :=
  .mk "slot"
    [("index", .i index), ("type", .i s.type),
     ("enabled", .i (if s.enabled then 1 else 0))]
    none
    (s.params.enum.map fun p =>
      XElem.mk "param" [("index", .i (p.1 : ℤ)), ("value", .d p.2)] none [])

/-- GlobalFXSlot::fromXML: type keeps the old value when absent, enabled
defaults to 1 when absent, params are assigned per in-range index. -/
def GlobalFXSlot.fromXML (el : XElem) (s : GlobalFXSlot) : GlobalFXSlot :=
  { type := (el.queryInt "type").getD s.type
    enabled := ((el.queryInt "enabled").getD 1) != 0
    params := (el.childrenNamed "param").foldl
      (fun ps pEl =>
        let idx := (pEl.queryInt "index").getD 0
        if 0 ≤ idx ∧ idx < (FX_PARAMS_PER_SLOT : ℤ) then
          ps.set idx.toNat ((pEl.queryDouble "value").getD 0)
        else ps)
      s.params }

/-- VoiceState from GrooveboxProject.h; `patchData` is an opaque byte
buffer (each entry < 256). -/
structure VoiceState where
  name : String := "Voice"
  patchData : List ℕ := []
  pattern : Pattern := {}
  volume : ℚ := 1
  pan : ℚ := 0
  sendA : ℚ := 0
  sendB : ℚ := 0
  mute : Bool := false
  solo : Bool := false
deriving DecidableEq

/-- VoiceState::toXML: index and name attributes, a mixer child, a patch
child only when patchData is nonempty (size attribute plus hex text), and
the pattern child. -/
def VoiceState.toXML (v : VoiceState) (index : ℤ) : XElem :=
  .mk "voice" [("index", .i index), ("name", .s v.name)] none
    ([XElem.mk "mixer"
        [("volume", .d v.volume), ("pan", .d v.pan),
         ("sendA", .d v.sendA), ("sendB", .d v.sendB),
         ("mute", .i (if v.mute then 1 else 0)),
         ("solo", .i (if v.solo then 1 else 0))]
        none []]
     ++ (if v.patchData.isEmpty then []
         else [XElem.mk "patch" [("size", .i (v.patchData.length : ℤ))]
                 (some (hexEncode v.patchData)) []])
     ++ [v.pattern.toXML])

/-- VoiceState::fromXML: every field keeps its previous value when the
corresponding attribute/element is absent; the patch text is decoded two
hex characters at a time. -/
def VoiceState.fromXML (el : XElem) (v : VoiceState) : VoiceState :=
  let v1 := { v with name := (el.attrString "name").getD v.name }
  let v2 := match el.firstChildElement "mixer" with
    | none => v1
    | some m =>
      { v1 with
        volume := (m.queryDouble "volume").getD v1.volume
        pan := (m.queryDouble "pan").getD v1.pan
        sendA := (m.queryDouble "sendA").getD v1.sendA
        sendB := (m.queryDouble "sendB").getD v1.sendB
        mute := match m.queryInt "mute" with
          | some b => b != 0
          | none => v1.mute
        solo := match m.queryInt "solo" with
          | some b => b != 0
          | none => v1.solo }
  let v3 := match el.firstChildElement "patch" with
    | none => v2
    | some pEl =>
      match pEl.text with
      | none => v2
      | some hx => { v2 with patchData := hexDecode ((pEl.queryInt "size").getD 0) hx }
  match el.firstChildElement "pattern" with
  | none => v3
  | some patEl => { v3 with pattern := Pattern.fromXML patEl v3.pattern }

/-- GrooveboxProject from GrooveboxProject.h.  The structure defaults are
the C++ member initializers; GrooveboxProject::reset (below) is what the
constructor actually runs.  Timestamps are strings produced by the ambient
clock, passed in as the `now` arguments. -/
structure GrooveboxProject where
  tempo : ℚ := 120
  loopBars : ℤ := 4
  swing : ℚ := 0
  masterVolume : ℚ := 4 / 5
  voices : List VoiceState := [{}, {}, {}, {}]
  globalFX : List GlobalFXSlot := [{}, {}, {}, {}]
  projectName : String := "Untitled"
  author : String := ""
  comment : String := ""
  tags : List String := []
  createdDate : String := ""
  modifiedDate : String := ""
deriving DecidableEq

/-- GrooveboxProject::reset: restore every field to its default, re-seed
the voice names "Voice 1".."Voice 4", set both dates to the current
timestamp. -/
def GrooveboxProject.reset (now : String) : GrooveboxProject :=
  { tempo := 120
    loopBars := 4
    swing := 0
    masterVolume := 4 / 5
    voices := [{ name := "Voice 1", pattern := { bars := 4 } },
               { name := "Voice 2", pattern := { bars := 4 } },
               { name := "Voice 3", pattern := { bars := 4 } },
               { name := "Voice 4", pattern := { bars := 4 } }]
    globalFX := [{}, {}, {}, {}]
    projectName := "Untitled"
    author := ""
    comment := ""
    tags := []
    createdDate := now
    modifiedDate := now }

/-- GrooveboxProject::getMaxPatternBars. -/
def GrooveboxProject.getMaxPatternBars (p : GrooveboxProject) : ℤ :=
  p.voices.foldl (fun m v => max m v.pattern.bars) 1

/-- GrooveboxProject::toXML: the parsed form of the document the save path
prints (declaration skipped: FirstChildElement skips non-element nodes). -/
def GrooveboxProject.toXML (p : GrooveboxProject) : XElem :=
  let globalFXEl : XElem := .mk "global_fx" [] none
    (p.globalFX.enum.map fun s => GlobalFXSlot.toXML s.2 (s.1 : ℤ))
  let globalEl : XElem := .mk "global"
    [("tempo", .d p.tempo), ("loop_bars", .i p.loopBars),
     ("swing", .d p.swing), ("master_volume", .d p.masterVolume)]
    none [globalFXEl]
  let voiceEls : List XElem :=
    p.voices.enum.map fun v => VoiceState.toXML v.2 (v.1 : ℤ)
  let metaEl : XElem := .mk "meta"
    [("name", .s p.projectName), ("author", .s p.author),
     ("created", .s p.createdDate), ("modified", .s p.modifiedDate)]
    none
    ((if p.comment = "" then []
      else [XElem.mk "comment" [] (some p.comment) []])
     ++ (if p.tags.isEmpty then []
         else [XElem.mk "tags" [] none
                 (p.tags.map fun t => XElem.mk "tag" [] (some t) [])]))
  .mk "#document" [] none
    [.mk "surgebox-project" [("version", .i (PROJECT_FORMAT_VERSION : ℤ))] none
       ([globalEl] ++ voiceEls ++ [metaEl])]

/-- GrooveboxProject::fromXML: no `surgebox-project` root leaves the
project as is; otherwise global settings, FX slots per index attribute,
voices per index attribute, and metadata are read, each falling back to
the current (post-reset) value when absent. -/
def GrooveboxProject.fromXML (doc : XElem) (p : GrooveboxProject) :
    GrooveboxProject :=
  match doc.firstChildElement "surgebox-project" with
  | none => p
  | some root =>
    let p1 := match root.firstChildElement "global" with
      | none => p
      | some g =>
        let pg := { p with
          tempo := (g.queryDouble "tempo").getD p.tempo
          loopBars := (g.queryInt "loop_bars").getD p.loopBars
          swing := (g.queryDouble "swing").getD p.swing
          masterVolume := (g.queryDouble "master_volume").getD p.masterVolume }
        match g.firstChildElement "global_fx" with
        | none => pg
        | some gfx =>
          { pg with globalFX := ((gfx.childrenNamed "slot").foldl
              (fun (fx : List GlobalFXSlot) (slotEl : XElem) =>
                let idx := (slotEl.queryInt "index").getD 0
                if 0 ≤ idx ∧ idx < (NUM_GLOBAL_FX : ℤ) then
                  fx.set idx.toNat (GlobalFXSlot.fromXML slotEl (fx.getD idx.toNat {}))
                else fx)
              pg.globalFX) }
    let p2 := { p1 with voices := ((root.childrenNamed "voice").foldl
        (fun (vs : List VoiceState) (vEl : XElem) =>
          let idx := (vEl.queryInt "index").getD 0
          if 0 ≤ idx ∧ idx < (NUM_VOICES : ℤ) then
            vs.set idx.toNat (VoiceState.fromXML vEl (vs.getD idx.toNat {}))
          else vs)
        p1.voices) }
    match root.firstChildElement "meta" with
    | none => p2
    | some m =>
      let p3 := { p2 with
        projectName := (m.attrString "name").getD p2.projectName
        author := (m.attrString "author").getD p2.author
        createdDate := (m.attrString "created").getD p2.createdDate
        modifiedDate := (m.attrString "modified").getD p2.modifiedDate }
      let p4 := match m.firstChildElement "comment" with
        | none => p3
        | some c =>
          match c.text with
          | none => p3
          | some t => { p3 with comment := t }
      { p4 with tags := match m.firstChildElement "tags" with
          | none => []
          | some tagsEl => (tagsEl.childrenNamed "tag").filterMap XElem.text }

/-- The bytes "SBOX" of the binary header tag. -/
def sboxTag : List ℕ := [83, 66, 79, 88]

/-- A well-formed project file: header tag, header version, and the XML
payload it carries (xmlSize/numVoices/reserved carry no further
information at this level). -/
structure SBFile where
  tag : List ℕ
  version : ℕ
  doc : XElem

/-- GrooveboxProject::saveToFile: stamp modifiedDate with the current
timestamp, then write the header ("SBOX", PROJECT_FORMAT_VERSION) and the
printed XML.  Returns the project as it is at save time together with the
file contents. -/
def GrooveboxProject.saveToFile (now : String) (p : GrooveboxProject) :
    GrooveboxProject × SBFile :=
  let ps := { p with modifiedDate := now }
  (ps, { tag := sboxTag, version := PROJECT_FORMAT_VERSION,
         doc := GrooveboxProject.toXML ps })

/-- What GrooveboxProject::loadFromFile finds on disk: an unreadable
stream, or a header (tag, version) together with the XML payload —
`none` when the payload cannot be read in full or does not parse. -/
inductive LoadInput where
  | unreadable
  | content (tag : List ℕ) (version : ℕ) (xml : Option XElem)

/-- Reading back a file this core wrote: the header fields are preserved
and the printed XML parses to the same element tree. -/
def SBFile.toLoadInput (f : SBFile) : LoadInput :=
  .content f.tag f.version (some f.doc)

/-- GrooveboxProject::loadFromFile: fail (returning the project untouched)
on an unreadable stream, a tag other than "SBOX", a version above
PROJECT_FORMAT_VERSION, or an unreadable/unparseable payload; otherwise
reset the project and read the document. -/
def GrooveboxProject.loadFromFile (input : LoadInput) (now : String)
    (p : GrooveboxProject) : Bool × GrooveboxProject :=
  match input with
  | .unreadable => (false, p)
  | .content tag version xml =>
    if tag ≠ sboxTag then (false, p)
    else if PROJECT_FORMAT_VERSION < version then (false, p)
    else match xml with
      | none => (false, p)
      | some doc => (true, GrooveboxProject.fromXML doc (GrooveboxProject.reset now))

namespace SequencerEngine

/-- SequencerEngine::ActiveNote. -/
structure ActiveNote where
  voiceIndex : ℕ
  pitch : ℕ
  endBeat : ℚ
deriving DecidableEq

/-- The mutable transport state of SequencerEngine (playing_, currentBeat_,
activeNotes_). -/
structure SeqState where
  playing : Bool := false
  currentBeat : ℚ := 0
  activeNotes : List ActiveNote := []
deriving DecidableEq

/-- A sample-accurate event added to a voice's juce::MidiBuffer. -/
inductive MidiEvent where
  | noteOn (voice pitch velocity : ℕ) (samplePos : ℤ)
  | noteOff (voice pitch : ℕ) (samplePos : ℤ)
deriving DecidableEq

/-- The sample position of an event. -/
def MidiEvent.samplePos : MidiEvent → ℤ
  | .noteOn _ _ _ sp => sp
  | .noteOff _ _ sp => sp

/-- SequencerEngine::play: a no-op when already playing; otherwise start
from the current position. -/
def play (s : SeqState) : SeqState :=
  if s.playing then s else { s with playing := true }

/-- SequencerEngine::stop: clear the playing flag, call releaseNote on each
active note's synth (when bound), clear the active set, rewind to beat 0.
The second component lists the (voiceIndex, pitch) releaseNote calls. -/
def stop (synthPresent : ℕ → Bool) (s : SeqState) :
    SeqState × List (ℕ × ℕ) :=
  ({ playing := false, currentBeat := 0, activeNotes := [] },
   (s.activeNotes.filter fun a => synthPresent a.voiceIndex).map
     fun a => (a.voiceIndex, a.pitch))

/-- SequencerEngine::setPositionBeats: release every active note (as in
stop), clear the active set, jump the cursor; the playing flag is
untouched. -/
def setPositionBeats (synthPresent : ℕ → Bool) (beat : ℚ) (s : SeqState) :
    SeqState × List (ℕ × ℕ) :=
  ({ playing := s.playing, currentBeat := beat, activeNotes := [] },
   (s.activeNotes.filter fun a => synthPresent a.voiceIndex).map
     fun a => (a.voiceIndex, a.pitch))

/-- SequencerEngine::getLoopEndBeat with a project bound: the maximum of
4.0 and every voice's pattern length in beats. -/
def getLoopEndBeat (proj : GrooveboxProject) : ℚ :=
  proj.voices.foldl (fun m v => max m ((v.pattern.bars : ℚ) * 4)) 4

/-- The two-line sample-position computation shared by the addNoteOn lambda
and releaseNotesEndingInRange: `baseSampleOffset + int(offsetBeats /
beatsPerSample)`, clamped into `[0, numSamples-1]`. -/
def clampedPos (base : ℤ) (offsetBeats beatsPerSample : ℚ)
    (numSamples : ℤ) : ℤ :=
  clampInt (base + ratTrunc (offsetBeats / beatsPerSample)) 0 (numSamples - 1)

/-- The body of the per-voice loop of SequencerEngine::triggerNotesInRange:
skip the voice when its MIDI buffer is absent, when it loses the mute/solo
policy, or when its pattern length is not positive; otherwise wrap the
block range into pattern-local coordinates, split it at the pattern
boundary when needed, and emit a note-on (plus a new ActiveNote with
absolute end beat) for every note starting in the range. -/
def triggerVoice (anySolo : Bool) (voice : VoiceState) (v : ℕ)
    (startBeat endBeat : ℚ) (numSamples : ℤ) (beatsPerSample : ℚ)
    (baseSampleOffset : ℤ) (bufPresent : ℕ → Bool) :
    List ActiveNote × List MidiEvent :=
  let patternLength : ℚ := (voice.pattern.bars : ℚ) * 4
  let blockLength := endBeat - startBeat
  let wrappedStart := cppFmod startBeat patternLength
  let wrappedEnd := wrappedStart + blockLength
  let pairs : List (MIDINote × ℚ) :=
    if ¬ bufPresent v then []
    else if anySolo ∧ ¬ voice.solo then []
    else if ¬ anySolo ∧ voice.mute then []
    else if patternLength ≤ 0 then []
    else if wrappedEnd > patternLength then
      ((voice.pattern.getNotesStartingInRange wrappedStart patternLength).map
        fun n => (n, n.startBeat - wrappedStart))
      ++ ((voice.pattern.getNotesStartingInRange 0 (wrappedEnd - patternLength)).map
        fun n => (n, (patternLength - wrappedStart) + n.startBeat))
    else
      (voice.pattern.getNotesStartingInRange wrappedStart wrappedEnd).map
        fun n => (n, n.startBeat - wrappedStart)
  (pairs.map fun pr =>
     { voiceIndex := v, pitch := pr.1.pitch,
       endBeat := startBeat + pr.2 + pr.1.duration },
   pairs.map fun pr =>
     MidiEvent.noteOn v pr.1.pitch pr.1.velocity
       (clampedPos baseSampleOffset pr.2 beatsPerSample numSamples))

/-- SequencerEngine::triggerNotesInRange: compute the solo flag once, run
the per-voice loop in index order, appending the new ActiveNotes to the
active set and collecting the emitted note-ons. -/
def triggerNotesInRange (bufPresent : ℕ → Bool) (proj : GrooveboxProject)
    (startBeat endBeat : ℚ) (numSamples : ℤ) (beatsPerSample : ℚ)
    (baseSampleOffset : ℤ) (actives : List ActiveNote) :
    List ActiveNote × List MidiEvent :=
  let anySolo := proj.voices.any fun v => v.solo
  let parts := proj.voices.enum.map fun iv =>
    triggerVoice anySolo iv.2 iv.1 startBeat endBeat numSamples
      beatsPerSample baseSampleOffset bufPresent
  (actives ++ (parts.map Prod.fst).flatten, (parts.map Prod.snd).flatten)

/-- SequencerEngine::releaseNotesEndingInRange: every active note with
`endBeat ∈ [startBeat, endBeat)` is removed; when its voice's MIDI buffer
is present a note-off is emitted at the clamped sample position. -/
def releaseNotesEndingInRange (bufPresent : ℕ → Bool)
    (startBeat endBeat : ℚ) (numSamples : ℤ) (beatsPerSample : ℚ)
    (baseSampleOffset : ℤ) :
    List ActiveNote → List ActiveNote × List MidiEvent
  | [] => ([], [])
  | a :: rest =>
    let r := releaseNotesEndingInRange bufPresent startBeat endBeat
      numSamples beatsPerSample baseSampleOffset rest
    if a.endBeat ≥ startBeat ∧ a.endBeat < endBeat then
      (r.1,
       (if bufPresent a.voiceIndex then
          [MidiEvent.noteOff a.voiceIndex a.pitch
            (clampedPos baseSampleOffset (a.endBeat - startBeat)
              beatsPerSample numSamples)]
        else [])
       ++ r.2)
    else (a :: r.1, r.2)

/-- SequencerEngine::process with a project bound: a no-op when not
playing; otherwise advance by `beatsPerSample * numSamples`, splitting the
block at the loop end when it is reached (triggering/releasing before the
loop point at base offset 0, rebasing every ActiveNote's endBeat by
-loopEnd, then triggering/releasing the remainder at the loop's sample
offset).  Returns the new state and the events added to the MIDI
buffers. -/
def process (bufPresent : ℕ → Bool) (proj : GrooveboxProject)
    (numSamples : ℤ) (sampleRate : ℚ) (s : SeqState) :
    SeqState × List MidiEvent :=
  if ¬ s.playing then (s, [])
  else
    let beatsPerSample := (proj.tempo / 60) / sampleRate
    let beatsThisBlock := beatsPerSample * (numSamples : ℚ)
    let startBeat := s.currentBeat
    let endBeat := startBeat + beatsThisBlock
    let loopEnd := getLoopEndBeat proj
    if endBeat ≥ loopEnd then
      let t1 := triggerNotesInRange bufPresent proj startBeat loopEnd
        numSamples beatsPerSample 0 s.activeNotes
      let r1 := releaseNotesEndingInRange bufPresent startBeat loopEnd
        numSamples beatsPerSample 0 t1.1
      let loopSampleOffset := ratTrunc ((loopEnd - startBeat) / beatsPerSample)
      let remainder := endBeat - loopEnd
      let rebased := r1.1.map fun a => { a with endBeat := a.endBeat - loopEnd }
      let t2 := triggerNotesInRange bufPresent proj 0 remainder
        numSamples beatsPerSample loopSampleOffset rebased
      let r2 := releaseNotesEndingInRange bufPresent 0 remainder
        numSamples beatsPerSample loopSampleOffset t2.1
      ({ playing := s.playing, currentBeat := remainder, activeNotes := r2.1 },
       t1.2 ++ r1.2 ++ t2.2 ++ r2.2)
    else
      let t1 := triggerNotesInRange bufPresent proj startBeat endBeat
        numSamples beatsPerSample 0 s.activeNotes
      let r1 := releaseNotesEndingInRange bufPresent startBeat endBeat
        numSamples beatsPerSample 0 t1.1
      ({ playing := s.playing, currentBeat := endBeat, activeNotes := r1.1 },
       t1.2 ++ r1.2)

/-- A call on the transport (the sequences claims C3 and C8 quantify
over). -/
inductive SeqOp where
  | play
  | stop
  | setPos (beat : ℚ)
  | process (numSamples : ℤ) (sampleRate : ℚ)

/-- Run one transport call, dropping its emitted events. -/
def applyOp (bufPresent synthPresent : ℕ → Bool) (proj : GrooveboxProject)
    (s : SeqState) : SeqOp → SeqState
  | .play => play s
  | .stop => (stop synthPresent s).1
  | .setPos b => (setPositionBeats synthPresent b s).1
  | .process n sr => (process bufPresent proj n sr s).1

/-- Run a sequence of transport calls, oldest first. -/
def runOps (bufPresent synthPresent : ℕ → Bool) (proj : GrooveboxProject)
    (ops : List SeqOp) (s : SeqState) : SeqState :=
  ops.foldl (applyOp bufPresent synthPresent proj) s

end SequencerEngine

/-! ### Concrete instances used by the claim theorems and witnesses -/

/-- All MIDI buffers bound (SurgeBoxEngine::process always passes all four
per-voice buffers). -/
def allBuffers : ℕ → Bool := fun _ => true

/-- All synths bound (SurgeBoxEngine::setProcessors with four live
processors). -/
def allSynths : ℕ → Bool := fun _ => true

/-- The pattern of the half-open-boundary scenario: notes starting at
0.0, 0.999 and 1.0. -/
def c7Pattern : Pattern :=
  { notes := [{ startBeat := 0, duration := 1, pitch := 60, velocity := 100 },
              { startBeat := 999 / 1000, duration := 1, pitch := 62, velocity := 100 },
              { startBeat := 1, duration := 1, pitch := 64, velocity := 100 }] }

/-- The loop-wrap scenario project: voice 0 has a 1-bar (4-beat) pattern
with a single note at startBeat 3.9, duration 0.5; the other voices have
empty 1-bar patterns; tempo 120. -/
def c1Project : GrooveboxProject :=
  { voices :=
      [{ pattern := { notes := [{ startBeat := 39 / 10, duration := 1 / 2,
                                  pitch := 60, velocity := 100 }],
                      bars := 1 } },
       { pattern := { bars := 1 } },
       { pattern := { bars := 1 } },
       { pattern := { bars := 1 } }] }

/-- Transport playing at beat 3.8 with no active notes. -/
def c1State : SequencerEngine.SeqState :=
  { playing := true, currentBeat := 19 / 5, activeNotes := [] }

/-- The block spanning beats [3.8, 4.2): 20 samples at sample rate 100
with tempo 120 (beatsPerSample = 0.02). -/
def c1Block1 : SequencerEngine.SeqState × List SequencerEngine.MidiEvent :=
  SequencerEngine.process allBuffers c1Project 20 100 c1State

/-- The following block, spanning beats [0.2, 0.6). -/
def c1Block2 : SequencerEngine.SeqState × List SequencerEngine.MidiEvent :=
  SequencerEngine.process allBuffers c1Project 20 100 c1Block1.1

/-- The mute/solo precedence scenario: voice 0 soloed, voice 1 muted, both
with a note at beat 0 (voices 2 and 3 empty and unmuted). -/
def c6Project : GrooveboxProject :=
  { voices :=
      [{ solo := true,
         pattern := { notes := [{ startBeat := 0, duration := 1,
                                  pitch := 60, velocity := 100 }], bars := 1 } },
       { mute := true,
         pattern := { notes := [{ startBeat := 0, duration := 1,
                                  pitch := 62, velocity := 100 }], bars := 1 } },
       { pattern := { bars := 1 } },
       { pattern := { bars := 1 } }] }

/-- A transport state with one sounding note, used by the C3 and C9
witnesses. -/
def c3State : SequencerEngine.SeqState :=
  { playing := true, currentBeat := 3, activeNotes := [⟨0, 60, 7 / 2⟩] }

/-- A crafted note element with out-of-range pitch and velocity. -/
def c10NoteEl : XElem :=
  .mk "note" [("start", .d 0), ("duration", .d 1),
              ("pitch", .i 300), ("velocity", .i 0)] none []

/-- A parseable document whose root carries no fields at all. -/
def c5EmptyDoc : XElem :=
  .mk "#document" [] none [.mk "surgebox-project" [] none []]

/-- A concrete project exercising every serialized field for the
round-trip witness: a note, patch bytes, mixer settings, FX parameters,
metadata and tags. -/
def c2Project : GrooveboxProject :=
  { tempo := 128
    loopBars := 2
    swing := 1 / 4
    masterVolume := 1 / 2
    voices :=
      [{ name := "Lead", patchData := [0, 171, 255],
         pattern := { notes := [{ startBeat := 1 / 2, duration := 1 / 4,
                                  pitch := 61, velocity := 99 }], bars := 2 },
         volume := 3 / 4, pan := -1 / 2, sendA := 1 / 8, sendB := 1 / 16,
         mute := true, solo := false },
       {}, {}, { solo := true }]
    globalFX := [{ type := 3, params := [1/2,0,0,0,0,0,0,0,0,0,0,1] },
                 {}, {}, { enabled := false }]
    projectName := "Demo"
    author := "someone"
    comment := "a comment"
    tags := ["groove", "demo"]
    createdDate := "2024-01-01T00:00:00"
    modifiedDate := "2024-01-02T00:00:00" }

/-! ### Helper lemmas -/

theorem clampInt_bounds (v lo hi : ℤ) (h : lo ≤ hi) :
    lo ≤ clampInt v lo hi ∧ clampInt v lo hi ≤ hi := by
  unfold clampInt
  split_ifs <;> omega

theorem eq_list4 {α : Type u} (l : List α) (h : l.length = 4) :
    ∃ a b c d, l = [a, b, c, d] := by
  obtain ⟨a, l, rfl⟩ := List.exists_of_length_succ l h
  simp only [List.length_cons] at h
  have h3 : l.length = 2 + 1 := by omega
  obtain ⟨b, l, rfl⟩ := List.exists_of_length_succ l h3
  simp only [List.length_cons] at h
  have h2 : l.length = 1 + 1 := by omega
  obtain ⟨c, l, rfl⟩ := List.exists_of_length_succ l h2
  simp only [List.length_cons] at h
  have h1 : l.length = 0 + 1 := by omega
  obtain ⟨d, l, rfl⟩ := List.exists_of_length_succ l h1
  simp only [List.length_cons] at h
  have h0 : l = [] := List.eq_nil_of_length_eq_zero (by omega)
  subst h0
  exact ⟨a, b, c, d, rfl⟩

theorem eq_list12 {α : Type u} (l : List α) (h : l.length = 12) :
    ∃ a b c d e f g h' i j k m, l = [a, b, c, d, e, f, g, h', i, j, k, m] := by
  obtain ⟨a, l, rfl⟩ := List.exists_of_length_succ l h
  simp only [List.length_cons] at h
  have t10 : l.length = 10 + 1 := by omega
  obtain ⟨b, l, rfl⟩ := List.exists_of_length_succ l t10
  simp only [List.length_cons] at h
  have t9 : l.length = 9 + 1 := by omega
  obtain ⟨c, l, rfl⟩ := List.exists_of_length_succ l t9
  simp only [List.length_cons] at h
  have t8 : l.length = 8 + 1 := by omega
  obtain ⟨d, l, rfl⟩ := List.exists_of_length_succ l t8
  simp only [List.length_cons] at h
  have t7 : l.length = 7 + 1 := by omega
  obtain ⟨e, l, rfl⟩ := List.exists_of_length_succ l t7
  simp only [List.length_cons] at h
  have t6 : l.length = 6 + 1 := by omega
  obtain ⟨f, l, rfl⟩ := List.exists_of_length_succ l t6
  simp only [List.length_cons] at h
  have t5 : l.length = 5 + 1 := by omega
  obtain ⟨g, l, rfl⟩ := List.exists_of_length_succ l t5
  simp only [List.length_cons] at h
  have t4 : l.length = 4 + 1 := by omega
  obtain ⟨h', l, rfl⟩ := List.exists_of_length_succ l t4
  simp only [List.length_cons] at h
  have t3 : l.length = 3 + 1 := by omega
  obtain ⟨i, l, rfl⟩ := List.exists_of_length_succ l t3
  simp only [List.length_cons] at h
  have t2 : l.length = 2 + 1 := by omega
  obtain ⟨j, l, rfl⟩ := List.exists_of_length_succ l t2
  simp only [List.length_cons] at h
  have t1 : l.length = 1 + 1 := by omega
  obtain ⟨k, l, rfl⟩ := List.exists_of_length_succ l t1
  simp only [List.length_cons] at h
  have t0 : l.length = 0 + 1 := by omega
  obtain ⟨m, l, rfl⟩ := List.exists_of_length_succ l t0
  simp only [List.length_cons] at h
  have hnil : l = [] := List.eq_nil_of_length_eq_zero (by omega)
  subst hnil
  exact ⟨a, b, c, d, e, f, g, h', i, j, k, m, rfl⟩

theorem hexDigitVal_hexChar : ∀ b < 16, hexDigitVal (hexChar b) = some b := by
  decide

theorem hexDecodeAux_encode (bs : List ℕ) (hb : ∀ b ∈ bs, b < 256) :
    hexDecodeAux bs.length (hexEncodeChars bs) = bs := by
  induction bs with
  | nil => rfl
  | cons b rest ih =>
    have hb0 : b < 256 := hb b (List.mem_cons_self _ _)
    have h1 : hexDigitVal (hexChar (b / 16)) = some (b / 16) :=
      hexDigitVal_hexChar _
        ((Nat.div_lt_iff_lt_mul (by norm_num)).mpr (by omega))
    have h2 : hexDigitVal (hexChar (b % 16)) = some (b % 16) :=
      hexDigitVal_hexChar _ (Nat.mod_lt _ (by norm_num))
    have hrest := ih fun x hx => hb x (List.mem_cons_of_mem _ hx)
    simp only [hexEncodeChars, List.length_cons, hexDecodeAux, h1, h2, hrest]
    rw [Nat.div_add_mod]

theorem hexDecode_hexEncode (bs : List ℕ) (hb : ∀ b ∈ bs, b < 256) :
    hexDecode (bs.length : ℤ) (hexEncode bs) = bs := by
  have : ((bs.length : ℤ)).toNat = bs.length := Int.toNat_natCast _
  unfold hexDecode hexEncode
  rw [this]
  exact hexDecodeAux_encode bs hb

theorem clampInt_of_mem (v lo hi : ℤ) (h1 : lo ≤ v) (h2 : v ≤ hi) :
    clampInt v lo hi = v := by
  unfold clampInt
  split_ifs <;> omega

theorem XElem.name_mk (n : String) (a : List (String × AVal))
    (t : Option String) (c : List XElem) : (XElem.mk n a t c).name = n := rfl

theorem XElem.attrs_mk (n : String) (a : List (String × AVal))
    (t : Option String) (c : List XElem) : (XElem.mk n a t c).attrs = a := rfl

theorem XElem.text_mk (n : String) (a : List (String × AVal))
    (t : Option String) (c : List XElem) : (XElem.mk n a t c).text = t := rfl

theorem XElem.children_mk (n : String) (a : List (String × AVal))
    (t : Option String) (c : List XElem) : (XElem.mk n a t c).children = c := rfl

theorem pattern_toXML_name (p : Pattern) : (Pattern.toXML p).name = "pattern" :=
  rfl

theorem midinote_toXML_name (n : MIDINote) :
    (MIDINote.toXML n).name = "note" := rfl

theorem voice_toXML_name (v : VoiceState) (i : ℤ) :
    (VoiceState.toXML v i).name = "voice" := rfl

theorem slot_toXML_name (s : GlobalFXSlot) (i : ℤ) :
    (GlobalFXSlot.toXML s i).name = "slot" := rfl

theorem voice_toXML_queryInt_index (v : VoiceState) (i : ℤ) :
    (VoiceState.toXML v i).queryInt "index" = some i := rfl

theorem slot_toXML_queryInt_index (s : GlobalFXSlot) (i : ℤ) :
    (GlobalFXSlot.toXML s i).queryInt "index" = some i := rfl

theorem filter_name_eq (nm : String) (els : List XElem)
    (h : ∀ el ∈ els, el.name = nm) :
    els.filter (fun c => c.name == nm) = els :=
  List.filter_eq_self.mpr fun el hel => by simp [h el hel]

theorem midinote_fromXML_toXML (n : MIDINote) (hp : n.pitch ≤ 127)
    (hv1 : 1 ≤ n.velocity) (hv2 : n.velocity ≤ 127) :
    MIDINote.fromXML n.toXML = n := by
  have hcp : (clampInt (n.pitch : ℤ) 0 127).toNat = n.pitch := by
    rw [clampInt_of_mem _ _ _ (by positivity) (by exact_mod_cast hp)]
    exact Int.toNat_natCast _
  have hcv : (clampInt (n.velocity : ℤ) 1 127).toNat = n.velocity := by
    rw [clampInt_of_mem _ _ _ (by exact_mod_cast hv1) (by exact_mod_cast hv2)]
    exact Int.toNat_natCast _
  unfold MIDINote.fromXML MIDINote.toXML
  simp [XElem.queryDouble, XElem.queryInt, XElem.attr?, XElem.attrs,
    List.find?, hcp, hcv]

theorem pattern_fromXML_toXML (p q : Pattern)
    (hn : ∀ n ∈ p.notes, n.pitch ≤ 127 ∧ 1 ≤ n.velocity ∧ n.velocity ≤ 127)
    (hs : List.Sorted noteLE p.notes) :
    Pattern.fromXML p.toXML q = p := by
  unfold Pattern.fromXML Pattern.toXML
  simp only [XElem.childrenNamed, XElem.children, XElem.queryInt,
    XElem.queryDouble, XElem.attr?, XElem.attrs, List.find?]
  rw [filter_name_eq _ _ (by
    intro el hel
    obtain ⟨n, _, rfl⟩ := List.mem_map.mp hel
    rfl)]
  rw [List.map_map]
  have hmap : p.notes.map (MIDINote.fromXML ∘ MIDINote.toXML) = p.notes.map id :=
    List.map_congr_left fun n hn' =>
      midinote_fromXML_toXML n (hn n hn').1 (hn n hn').2.1 (hn n hn').2.2
  rw [hmap, List.map_id, List.Sorted.insertionSort_eq hs]
  simp

theorem slot_fromXML_toXML (s w : GlobalFXSlot) (i : ℤ)
    (hsl : s.params.length = 12) (hwl : w.params.length = 12) :
    GlobalFXSlot.fromXML (s.toXML i) w = s := by
  obtain ⟨stype, sparams, sen⟩ := s
  obtain ⟨wtype, wparams, wen⟩ := w
  obtain ⟨q0, q1, q2, q3, q4, q5, q6, q7, q8, q9, q10, q11, rfl⟩ :=
    eq_list12 sparams hsl
  obtain ⟨x0, x1, x2, x3, x4, x5, x6, x7, x8, x9, x10, x11, rfl⟩ :=
    eq_list12 wparams hwl
  cases sen <;>
    simp [GlobalFXSlot.fromXML, GlobalFXSlot.toXML, XElem.queryInt,
      XElem.queryDouble, XElem.attr?, XElem.attrs, XElem.childrenNamed,
      XElem.children, XElem.name, List.find?, List.enum, List.enumFrom,
      FX_PARAMS_PER_SLOT]

theorem filterMap_text_tags (ts : List String) :
    List.filterMap XElem.text
      (List.filter (fun c => c.name == "tag")
        (ts.map fun t => XElem.mk "tag" [] (some t) [])) = ts := by
  induction ts with
  | nil => rfl
  | cons t ts ih => simp [List.filterMap_cons, XElem.text, XElem.name_mk, ih]

theorem voice_fromXML_toXML (v w : VoiceState) (i : ℤ)
    (hn : ∀ n ∈ v.pattern.notes,
      n.pitch ≤ 127 ∧ 1 ≤ n.velocity ∧ n.velocity ≤ 127)
    (hsort : List.Sorted noteLE v.pattern.notes)
    (hbytes : ∀ b ∈ v.patchData, b < 256)
    (hw : w.patchData = []) :
    VoiceState.fromXML (v.toXML i) w = v := by
  obtain ⟨vname, vpatch, vpat, vvol, vpan, vsa, vsb, vmute, vsolo⟩ := v
  have hpat := pattern_fromXML_toXML vpat w.pattern hn hsort
  cases vpatch with
  | nil =>
    cases vmute <;> cases vsolo <;>
      simp [VoiceState.fromXML, VoiceState.toXML, XElem.firstChildElement,
        XElem.name_mk, XElem.attrs_mk, XElem.text_mk, XElem.children_mk,
        pattern_toXML_name, XElem.attrString, XElem.queryInt,
        XElem.queryDouble, XElem.attr?, List.find?, hpat, hw]
  | cons b bs =>
    have hdec : hexDecode ((bs.length : ℤ) + 1) (hexEncode (b :: bs)) = b :: bs := by
      simpa using hexDecode_hexEncode (b :: bs) hbytes
    cases vmute <;> cases vsolo <;>
      simp [VoiceState.fromXML, VoiceState.toXML, XElem.firstChildElement,
        XElem.name_mk, XElem.attrs_mk, XElem.text_mk, XElem.children_mk,
        pattern_toXML_name, XElem.attrString, XElem.queryInt,
        XElem.queryDouble, XElem.attr?, List.find?, hpat, hdec]

theorem pm_applyOp_sorted (m : PatternModel) (op : PMOp)
    (h : List.Sorted pmStartLE m.notes) :
    List.Sorted pmStartLE ((m.applyOp op).notes) := by
  cases op with
  | add s d p v =>
    exact List.sorted_insertionSort pmStartLE _
  | move i s p =>
    simp only [PatternModel.applyOp, PatternModel.moveNote]
    split_ifs
    · exact List.sorted_insertionSort pmStartLE _
    · exact h

theorem pm_applyOps_sorted (ops : List PMOp) (m : PatternModel)
    (h : List.Sorted pmStartLE m.notes) :
    List.Sorted pmStartLE ((m.applyOps ops).notes) := by
  induction ops generalizing m with
  | nil => exact h
  | cons op rest ih =>
    exact ih (m.applyOp op) (pm_applyOp_sorted m op h)

namespace SequencerEngine

theorem clampedPos_bounds (base : ℤ) (off bps : ℚ) (n : ℤ) (h : 1 ≤ n) :
    0 ≤ clampedPos base off bps n ∧ clampedPos base off bps n ≤ n - 1 :=
  clampInt_bounds _ 0 (n - 1) (by omega)

/-- Every event the per-voice trigger loop emits is a note-on for that
voice whose sample position went through the truncate-and-clamp
computation. -/
theorem triggerVoice_events_shape (anySolo : Bool) (voice : VoiceState)
    (i : ℕ) (sB eB : ℚ) (n : ℤ) (bps : ℚ) (base : ℤ) (buf : ℕ → Bool) :
    ∀ ev ∈ (triggerVoice anySolo voice i sB eB n bps base buf).2,
      ∃ pitch vel off,
        ev = MidiEvent.noteOn i pitch vel (clampedPos base off bps n) := by
  intro ev hev
  unfold triggerVoice at hev
  simp only [List.mem_map] at hev
  obtain ⟨pr, _, rfl⟩ := hev
  exact ⟨pr.1.pitch, pr.1.velocity, pr.2, rfl⟩

/-- The solo/mute policy of the per-voice trigger loop: any note-on it
emits carries the voice's own index; with a solo active the voice is
soloed, with no solo active the voice is not muted. -/
theorem triggerVoice_noteOn_policy (anySolo : Bool) (voice : VoiceState)
    (i : ℕ) (sB eB : ℚ) (n : ℤ) (bps : ℚ) (base : ℤ) (buf : ℕ → Bool)
    (v pitch vel : ℕ) (sp : ℤ)
    (hev : MidiEvent.noteOn v pitch vel sp ∈
      (triggerVoice anySolo voice i sB eB n bps base buf).2) :
    v = i ∧ (anySolo = true → voice.solo = true) ∧
      (anySolo = false → voice.mute = false) := by
  unfold triggerVoice at hev
  simp only [List.mem_map] at hev
  obtain ⟨pr, hpr, heq⟩ := hev
  have hvi : v = i := ((MidiEvent.noteOn.injEq _ _ _ _ _ _ _ _).mp heq.symm).1
  split_ifs at hpr with h1 h2 h3 h4 h5 <;>
    first
      | exact absurd hpr (List.not_mem_nil _)
      | exact ⟨hvi,
          fun hs => by
            by_contra hns
            exact h2 ⟨by simp [hs], by simpa using hns⟩,
          fun hf => by
            by_contra hm
            exact h3 ⟨by simp [hf], by simpa using hm⟩⟩

/-- Every event triggerNotesInRange emits comes from the per-voice loop of
some indexed voice of the project. -/
theorem trigger_events_mem (bufPresent : ℕ → Bool) (proj : GrooveboxProject)
    (sB eB : ℚ) (n : ℤ) (bps : ℚ) (base : ℤ) (acts : List ActiveNote) :
    ∀ ev ∈ (triggerNotesInRange bufPresent proj sB eB n bps base acts).2,
      ∃ i voice, proj.voices[i]? = some voice ∧
        ev ∈ (triggerVoice (proj.voices.any fun w => w.solo) voice i sB eB n
          bps base bufPresent).2 := by
  intro ev hev
  unfold triggerNotesInRange at hev
  simp only [List.mem_flatten, List.mem_map] at hev
  obtain ⟨l, ⟨part, ⟨⟨iv, hiv, rfl⟩, rfl⟩⟩, hevl⟩ := hev
  exact ⟨iv.1, iv.2, List.mk_mem_enum_iff_getElem?.mp (by simpa using hiv),
    hevl⟩

/-- Every event releaseNotesEndingInRange emits is a note-off whose sample
position went through the truncate-and-clamp computation. -/
theorem release_events_shape (bufPresent : ℕ → Bool) (sB eB : ℚ) (n : ℤ)
    (bps : ℚ) (base : ℤ) (acts : List ActiveNote) :
    ∀ ev ∈ (releaseNotesEndingInRange bufPresent sB eB n bps base acts).2,
      ∃ voice pitch off,
        ev = MidiEvent.noteOff voice pitch (clampedPos base off bps n) := by
  induction acts with
  | nil => simp [releaseNotesEndingInRange]
  | cons a rest ih =>
    intro ev hev
    unfold releaseNotesEndingInRange at hev
    split_ifs at hev with h1 h2 <;>
      simp only [List.mem_append, List.mem_singleton, List.nil_append] at hev
    · rcases hev with rfl | hev
      · exact ⟨a.voiceIndex, a.pitch, a.endBeat - sB, rfl⟩
      · exact ih ev hev
    · exact ih ev hev
    · exact ih ev hev

/-- releaseNotesEndingInRange never emits a note-on. -/
theorem release_no_noteOn (bufPresent : ℕ → Bool) (sB eB : ℚ) (n : ℤ)
    (bps : ℚ) (base : ℤ) (acts : List ActiveNote)
    (v pitch vel : ℕ) (sp : ℤ) :
    MidiEvent.noteOn v pitch vel sp ∉
      (releaseNotesEndingInRange bufPresent sB eB n bps base acts).2 := by
  intro hev
  obtain ⟨_, _, _, h⟩ := release_events_shape bufPresent sB eB n bps base
    acts _ hev
  exact MidiEvent.noConfusion h

/-- Every note-on process emits comes from one of its (at most two)
triggerNotesInRange calls. -/
theorem process_noteOn_mem (bufPresent : ℕ → Bool)
    (proj : GrooveboxProject) (n : ℤ) (sr : ℚ) (s : SeqState)
    (v pitch vel : ℕ) (sp : ℤ)
    (hev : MidiEvent.noteOn v pitch vel sp ∈
      (process bufPresent proj n sr s).2) :
    ∃ sB eB base acts,
      MidiEvent.noteOn v pitch vel sp ∈
        (triggerNotesInRange bufPresent proj sB eB n ((proj.tempo / 60) / sr)
          base acts).2 := by
  unfold process at hev
  simp only [] at hev
  split_ifs at hev with h1 h2
  · simp only [List.mem_append] at hev
    rcases hev with ((hev | hev) | hev) | hev
    · exact ⟨_, _, _, _, hev⟩
    · exact absurd hev (release_no_noteOn _ _ _ _ _ _ _ _ _ _ _)
    · exact ⟨_, _, _, _, hev⟩
    · exact absurd hev (release_no_noteOn _ _ _ _ _ _ _ _ _ _ _)
  · simp only [List.mem_append] at hev
    rcases hev with hev | hev
    · exact ⟨_, _, _, _, hev⟩
    · exact absurd hev (release_no_noteOn _ _ _ _ _ _ _ _ _ _ _)
  · simp at hev

end SequencerEngine

/-! ### Claim theorems -/

/-- C7: getNotesStartingInRange(a,b) returns exactly the notes with
a ≤ startBeat < b; on a pattern with notes at 0.0, 0.999 and 1.0 the
query over [0,1) returns exactly the first two. -/
theorem c7_half_open_query :
    (∀ (p : Pattern) (a b : ℚ), a < b →
      ∀ n, n ∈ p.getNotesStartingInRange a b ↔
        n ∈ p.notes ∧ a ≤ n.startBeat ∧ n.startBeat < b)
    ∧ c7Pattern.getNotesStartingInRange 0 1 =
      [{ startBeat := 0, duration := 1, pitch := 60, velocity := 100 },
       { startBeat := 999 / 1000, duration := 1, pitch := 62, velocity := 100 }] := by
  constructor
  · intro p a b _ n
    simp [Pattern.getNotesStartingInRange, List.mem_filter, ge_iff_le,
      and_assoc]
  · norm_num [c7Pattern, Pattern.getNotesStartingInRange]

/-- C7 witness: the characterization applied to the concrete pattern and
range, at the note starting at 0.999. -/
theorem c7_half_open_query_witness :
    (0 : ℚ) < 1 ∧
    ({ startBeat := 999 / 1000, duration := 1, pitch := 62, velocity := 100 } ∈
        c7Pattern.getNotesStartingInRange 0 1 ↔
      { startBeat := 999 / 1000, duration := 1, pitch := 62, velocity := 100 } ∈
          c7Pattern.notes ∧
        (0 : ℚ) ≤ 999 / 1000 ∧ (999 / 1000 : ℚ) < 1) :=
  ⟨by norm_num,
   c7_half_open_query.1 c7Pattern 0 1 (by norm_num) _⟩

/-- C8: play() is idempotent and never rewinds: a second play() with no
intervening stop() changes nothing, and the cursor keeps its value. -/
theorem c8_play_idempotent (s : SequencerEngine.SeqState) :
    (SequencerEngine.play (SequencerEngine.play s)).currentBeat = s.currentBeat
    ∧ (SequencerEngine.play s).currentBeat = s.currentBeat
    ∧ SequencerEngine.play (SequencerEngine.play s) = SequencerEngine.play s := by
  unfold SequencerEngine.play
  split_ifs <;> simp_all

/-- C4 (as amended): Pattern::addNote always leaves the notes sorted by
(startBeat, pitch); the PatternModel's addNote/moveNote sequences leave its
note children sorted by startBeat only (pitch ties are not reordered). -/
theorem c4_sort_invariant_amended :
    (∀ (p : Pattern) (start dur : ℚ) (pitch velocity : ℕ),
      List.Sorted noteLE ((p.addNote start dur pitch velocity).notes))
    ∧ (∀ ops : List PMOp,
      List.Sorted pmStartLE ((PatternModel.applyOps {} ops).notes)) := by
  constructor
  · intro p start dur pitch velocity
    exact List.sorted_insertionSort noteLE _
  · intro ops
    exact pm_applyOps_sorted ops {} (List.sorted_nil)

/-- C4 counterexample: two PatternModel::addNote calls at the same
startBeat with descending pitches leave the model's notes out of
(startBeat, pitch) order, because PatternModel::sortNotes compares start
beats only. -/
theorem c4_counterexample :
    ¬ List.Sorted pmKeyLE
      ((PatternModel.addNote (PatternModel.addNote {} 0 1 60 100) 0 1 50 100).notes) := by
  norm_num [PatternModel.addNote, PatternModel.sortNotes, List.insertionSort,
    List.orderedInsert, pmStartLE, pmKeyLE, List.sorted_cons]

/-- C10: MIDINote::fromXML clamps pitch into [0,127] and velocity into
[1,127] whatever the attributes hold, uses defaults 60/100 when they are
absent, and hence every note of a pattern read from a file is in range. -/
theorem c10_fromxml_clamps :
    (∀ el : XElem,
      (MIDINote.fromXML el).pitch ≤ 127 ∧
      1 ≤ (MIDINote.fromXML el).velocity ∧ (MIDINote.fromXML el).velocity ≤ 127)
    ∧ MIDINote.fromXML (XElem.mk "note" [] none []) =
        { startBeat := 0, duration := 1, pitch := 60, velocity := 100 }
    ∧ (∀ (el : XElem) (p : Pattern) (n : MIDINote),
        n ∈ (Pattern.fromXML el p).notes →
        n.pitch ≤ 127 ∧ 1 ≤ n.velocity ∧ n.velocity ≤ 127) := by
  have hb : ∀ z : ℤ, (clampInt z 0 127).toNat ≤ 127 := by
    intro z
    have := clampInt_bounds z 0 127 (by omega)
    omega
  have hv1 : ∀ z : ℤ, 1 ≤ (clampInt z 1 127).toNat := by
    intro z
    have := clampInt_bounds z 1 127 (by omega)
    omega
  have hv2 : ∀ z : ℤ, (clampInt z 1 127).toNat ≤ 127 := by
    intro z
    have := clampInt_bounds z 1 127 (by omega)
    omega
  refine ⟨fun el => ⟨hb _, hv1 _, hv2 _⟩, ?_, ?_⟩
  · simp [MIDINote.fromXML, XElem.queryDouble, XElem.queryInt, XElem.attr?,
      XElem.attrs, clampInt]
  · intro el p n hn
    unfold Pattern.fromXML at hn
    simp only at hn
    have := (List.perm_insertionSort noteLE
      ((el.childrenNamed "note").map MIDINote.fromXML)).mem_iff.mp hn
    obtain ⟨nel, _, rfl⟩ := List.mem_map.mp this
    exact ⟨hb _, hv1 _, hv2 _⟩

/-- C3: after stop() or setPositionBeats() — wherever they occur in a
sequence of transport calls — the active-note set is empty and a
releaseNote call was issued for every note that was active just before,
provided every voice has its synth bound. -/
theorem c3_no_stuck_notes (bufPresent synthPresent : ℕ → Bool)
    (proj : GrooveboxProject) (ops : List SequencerEngine.SeqOp)
    (s0 : SequencerEngine.SeqState) (b : ℚ)
    (hs : ∀ v, synthPresent v = true) :
    ((SequencerEngine.stop synthPresent
        (SequencerEngine.runOps bufPresent synthPresent proj ops s0)).1.activeNotes = []
      ∧ (SequencerEngine.stop synthPresent
          (SequencerEngine.runOps bufPresent synthPresent proj ops s0)).2 =
        (SequencerEngine.runOps bufPresent synthPresent proj ops s0).activeNotes.map
          (fun a => (a.voiceIndex, a.pitch)))
    ∧ ((SequencerEngine.setPositionBeats synthPresent b
        (SequencerEngine.runOps bufPresent synthPresent proj ops s0)).1.activeNotes = []
      ∧ (SequencerEngine.setPositionBeats synthPresent b
          (SequencerEngine.runOps bufPresent synthPresent proj ops s0)).2 =
        (SequencerEngine.runOps bufPresent synthPresent proj ops s0).activeNotes.map
          (fun a => (a.voiceIndex, a.pitch))) := by
  simp [SequencerEngine.stop, SequencerEngine.setPositionBeats, hs]

/-- C3 witness: the theorem applied after a play() call on a state with one
sounding note, with all synths bound. -/
theorem c3_no_stuck_notes_witness :
    (∀ v, allSynths v = true) ∧
    (((SequencerEngine.stop allSynths
        (SequencerEngine.runOps allBuffers allSynths c1Project
          [SequencerEngine.SeqOp.play] c3State)).1.activeNotes = []
      ∧ (SequencerEngine.stop allSynths
          (SequencerEngine.runOps allBuffers allSynths c1Project
            [SequencerEngine.SeqOp.play] c3State)).2 =
        (SequencerEngine.runOps allBuffers allSynths c1Project
          [SequencerEngine.SeqOp.play] c3State).activeNotes.map
          (fun a => (a.voiceIndex, a.pitch)))
    ∧ ((SequencerEngine.setPositionBeats allSynths 2
        (SequencerEngine.runOps allBuffers allSynths c1Project
          [SequencerEngine.SeqOp.play] c3State)).1.activeNotes = []
      ∧ (SequencerEngine.setPositionBeats allSynths 2
          (SequencerEngine.runOps allBuffers allSynths c1Project
            [SequencerEngine.SeqOp.play] c3State)).2 =
        (SequencerEngine.runOps allBuffers allSynths c1Project
          [SequencerEngine.SeqOp.play] c3State).activeNotes.map
          (fun a => (a.voiceIndex, a.pitch)))) :=
  ⟨fun _ => rfl,
   c3_no_stuck_notes allBuffers allSynths c1Project
     [SequencerEngine.SeqOp.play] c3State 2 (fun _ => rfl)⟩

/-- C9: every event process() emits lands inside the block: its sample
position is in [0, numSamples-1]. -/
theorem c9_sample_positions (bufPresent : ℕ → Bool)
    (proj : GrooveboxProject) (n : ℤ) (sr : ℚ)
    (s : SequencerEngine.SeqState) (h : 1 ≤ n) :
    ∀ ev ∈ (SequencerEngine.process bufPresent proj n sr s).2,
      0 ≤ ev.samplePos ∧ ev.samplePos ≤ n - 1 := by
  have htr : ∀ (sB eB : ℚ) (bps : ℚ) (base : ℤ)
      (acts : List SequencerEngine.ActiveNote),
      ∀ ev ∈ (SequencerEngine.triggerNotesInRange bufPresent proj sB eB n bps
          base acts).2,
        0 ≤ ev.samplePos ∧ ev.samplePos ≤ n - 1 := by
    intro sB eB bps base acts ev hev
    obtain ⟨i, voice, _, hv⟩ :=
      SequencerEngine.trigger_events_mem bufPresent proj sB eB n bps base acts
        ev hev
    obtain ⟨p, velo, off, rfl⟩ :=
      SequencerEngine.triggerVoice_events_shape _ voice i sB eB n bps base
        bufPresent ev hv
    simpa [SequencerEngine.MidiEvent.samplePos] using
      SequencerEngine.clampedPos_bounds base off bps n h
  have hre : ∀ (sB eB : ℚ) (bps : ℚ) (base : ℤ)
      (acts : List SequencerEngine.ActiveNote),
      ∀ ev ∈ (SequencerEngine.releaseNotesEndingInRange bufPresent sB eB n bps
          base acts).2,
        0 ≤ ev.samplePos ∧ ev.samplePos ≤ n - 1 := by
    intro sB eB bps base acts ev hev
    obtain ⟨voice, p, off, rfl⟩ :=
      SequencerEngine.release_events_shape bufPresent sB eB n bps base acts
        ev hev
    simpa [SequencerEngine.MidiEvent.samplePos] using
      SequencerEngine.clampedPos_bounds base off bps n h
  intro ev hev
  unfold SequencerEngine.process at hev
  simp only [] at hev
  split_ifs at hev
  · simp only [List.mem_append] at hev
    rcases hev with ((hev | hev) | hev) | hev
    · exact htr _ _ _ _ _ ev hev
    · exact hre _ _ _ _ _ ev hev
    · exact htr _ _ _ _ _ ev hev
    · exact hre _ _ _ _ _ ev hev
  · simp only [List.mem_append] at hev
    rcases hev with hev | hev
    · exact htr _ _ _ _ _ ev hev
    · exact hre _ _ _ _ _ ev hev
  · simp at hev

/-- C9 witness: the bound applied to the loop-wrap block, which emits a
note-on at sample 5 of 20. -/
theorem c9_sample_positions_witness :
    (1 : ℤ) ≤ 20 ∧
    ∀ ev ∈ (SequencerEngine.process allBuffers c1Project 20 100 c1State).2,
      0 ≤ ev.samplePos ∧ ev.samplePos ≤ 20 - 1 :=
  ⟨by norm_num,
   c9_sample_positions allBuffers c1Project 20 100 c1State (by norm_num)⟩

/-- C6: in any process() call, with a solo active, only soloed voices can
emit note-ons; with no solo active, muted voices emit none; concretely,
with voice 0 soloed and voice 1 muted and both holding a note at beat 0,
the first block's events are exactly one note-on for voice 0. -/
theorem c6_mute_solo_precedence :
    (∀ (bufPresent : ℕ → Bool) (proj : GrooveboxProject) (n : ℤ) (sr : ℚ)
       (s : SequencerEngine.SeqState) (v pitch vel : ℕ) (sp : ℤ),
       (proj.voices.any fun w => w.solo) = true →
       SequencerEngine.MidiEvent.noteOn v pitch vel sp ∈
         (SequencerEngine.process bufPresent proj n sr s).2 →
       ∃ voice, proj.voices[v]? = some voice ∧ voice.solo = true)
    ∧ (∀ (bufPresent : ℕ → Bool) (proj : GrooveboxProject) (n : ℤ) (sr : ℚ)
       (s : SequencerEngine.SeqState) (v pitch vel : ℕ) (sp : ℤ),
       (proj.voices.any fun w => w.solo) = false →
       SequencerEngine.MidiEvent.noteOn v pitch vel sp ∈
         (SequencerEngine.process bufPresent proj n sr s).2 →
       ∃ voice, proj.voices[v]? = some voice ∧ voice.mute = false)
    ∧ (SequencerEngine.process allBuffers c6Project 20 100
        { playing := true }).2 =
      [SequencerEngine.MidiEvent.noteOn 0 60 100 0] := by
  refine ⟨?_, ?_, ?_⟩
  · intro bufPresent proj n sr s v pitch vel sp hsolo hev
    obtain ⟨sB, eB, base, acts, htr⟩ :=
      SequencerEngine.process_noteOn_mem bufPresent proj n sr s v pitch vel sp
        hev
    obtain ⟨i, voice, hget, hv⟩ :=
      SequencerEngine.trigger_events_mem bufPresent proj sB eB n _ base acts
        _ htr
    obtain ⟨hvi, hpol, _⟩ :=
      SequencerEngine.triggerVoice_noteOn_policy _ voice i sB eB n _ base
        bufPresent v pitch vel sp hv
    exact ⟨voice, hvi ▸ hget, hpol hsolo⟩
  · intro bufPresent proj n sr s v pitch vel sp hsolo hev
    obtain ⟨sB, eB, base, acts, htr⟩ :=
      SequencerEngine.process_noteOn_mem bufPresent proj n sr s v pitch vel sp
        hev
    obtain ⟨i, voice, hget, hv⟩ :=
      SequencerEngine.trigger_events_mem bufPresent proj sB eB n _ base acts
        _ htr
    obtain ⟨hvi, _, hpol⟩ :=
      SequencerEngine.triggerVoice_noteOn_policy _ voice i sB eB n _ base
        bufPresent v pitch vel sp hv
    exact ⟨voice, hvi ▸ hget, hpol hsolo⟩
  · norm_num [SequencerEngine.process, SequencerEngine.getLoopEndBeat,
      SequencerEngine.triggerNotesInRange, SequencerEngine.triggerVoice,
      SequencerEngine.releaseNotesEndingInRange, SequencerEngine.clampedPos,
      clampInt, ratTrunc, cppFmod, Pattern.getNotesStartingInRange,
      c6Project, allBuffers, List.enum, List.enumFrom]

/-- C6 witness: the solo direction applied to the concrete scenario's
emitted note-on. -/
theorem c6_mute_solo_precedence_witness :
    (c6Project.voices.any fun w => w.solo) = true ∧
    SequencerEngine.MidiEvent.noteOn 0 60 100 0 ∈
      (SequencerEngine.process allBuffers c6Project 20 100
        { playing := true }).2 ∧
    ∃ voice, c6Project.voices[0]? = some voice ∧ voice.solo = true := by
  have h1 : (c6Project.voices.any fun w => w.solo) = true := by
    norm_num [c6Project]
  have h2 : SequencerEngine.MidiEvent.noteOn 0 60 100 0 ∈
      (SequencerEngine.process allBuffers c6Project 20 100
        { playing := true }).2 := by
    rw [c6_mute_solo_precedence.2.2]
    exact List.mem_singleton.mpr rfl
  exact ⟨h1, h2, c6_mute_solo_precedence.1 allBuffers c6Project 20 100
    { playing := true } 0 60 100 0 h1 h2⟩

/-- C1: over a playing 4-beat loop with a note at startBeat 3.9 of
duration 0.5, the block spanning [3.8, 4.2) emits exactly one note-on
(at sample 5, near the block start) and no duplicate after the wrap; the
active note's end beat is rebased to 0.4 = 4.4 - 4.0, and the note-off is
emitted exactly once, in the following block at the sample corresponding
to beat 0.4. -/
theorem c1_loop_wrap_triggering :
    c1Block1.2 = [SequencerEngine.MidiEvent.noteOn 0 60 100 5]
    ∧ c1Block1.1.activeNotes =
      [{ voiceIndex := 0, pitch := 60, endBeat := 2 / 5 }]
    ∧ c1Block1.1.currentBeat = 1 / 5
    ∧ c1Block2.2 = [SequencerEngine.MidiEvent.noteOff 0 60 10]
    ∧ c1Block2.1.activeNotes = [] := by
  norm_num [c1Block1, c1Block2, c1State, c1Project, allBuffers,
    SequencerEngine.process, SequencerEngine.getLoopEndBeat,
    SequencerEngine.triggerNotesInRange, SequencerEngine.triggerVoice,
    SequencerEngine.releaseNotesEndingInRange, SequencerEngine.clampedPos,
    clampInt, ratTrunc, cppFmod, Pattern.getNotesStartingInRange,
    List.enum, List.enumFrom]

/-- C5: loadFromFile fails cleanly — returning false and the project
exactly as it was — on an unreadable stream, a tag other than "SBOX", a
header version above the supported one, or an unreadable/unparseable XML
payload; any version up to the supported one with a parseable payload is
accepted, and a payload carrying no fields at all produces the freshly
reset (default) project. -/
theorem c5_load_failure_semantics :
    (∀ (p : GrooveboxProject) (now : String),
      GrooveboxProject.loadFromFile .unreadable now p = (false, p))
    ∧ (∀ (p : GrooveboxProject) (now : String) (tag : List ℕ) (version : ℕ)
        (xml : Option XElem), tag ≠ sboxTag →
        GrooveboxProject.loadFromFile (.content tag version xml) now p
          = (false, p))
    ∧ (∀ (p : GrooveboxProject) (now : String) (tag : List ℕ) (version : ℕ)
        (xml : Option XElem), PROJECT_FORMAT_VERSION < version →
        GrooveboxProject.loadFromFile (.content tag version xml) now p
          = (false, p))
    ∧ (∀ (p : GrooveboxProject) (now : String) (version : ℕ),
        GrooveboxProject.loadFromFile (.content sboxTag version none) now p
          = (false, p))
    ∧ (∀ (p : GrooveboxProject) (now : String) (version : ℕ) (doc : XElem),
        version ≤ PROJECT_FORMAT_VERSION →
        (GrooveboxProject.loadFromFile (.content sboxTag version (some doc))
          now p).1 = true)
    ∧ (∀ (p : GrooveboxProject) (now : String),
        GrooveboxProject.loadFromFile
          (.content sboxTag PROJECT_FORMAT_VERSION (some c5EmptyDoc)) now p
          = (true, GrooveboxProject.reset now)) := by
  refine ⟨fun p now => rfl, ?_, ?_, ?_, ?_, ?_⟩
  · intro p now tag version xml htag
    simp [GrooveboxProject.loadFromFile, htag]
  · intro p now tag version xml hver
    by_cases htag : tag = sboxTag <;>
      simp [GrooveboxProject.loadFromFile, htag, hver, Nat.not_le.mpr hver]
  · intro p now version
    by_cases hver : PROJECT_FORMAT_VERSION < version <;>
      simp [GrooveboxProject.loadFromFile, hver]
  · intro p now version doc hver
    simp [GrooveboxProject.loadFromFile, Nat.not_lt.mpr hver]
  · intro p now
    simp [GrooveboxProject.loadFromFile, c5EmptyDoc,
      GrooveboxProject.fromXML, XElem.firstChildElement, XElem.children,
      XElem.childrenNamed, XElem.name, List.find?]

/-- C5 witness: the failure branches applied at a wrong tag, a version 2
header, a missing payload, and the empty-root acceptance case. -/
theorem c5_load_failure_semantics_witness :
    ([0, 0, 0, 0] : List ℕ) ≠ sboxTag ∧
    PROJECT_FORMAT_VERSION < 2 ∧
    (2 : ℕ) ≤ 2 ∧
    (1 : ℕ) ≤ PROJECT_FORMAT_VERSION ∧
    GrooveboxProject.loadFromFile (.content [0, 0, 0, 0] 1 none) "t" {}
      = (false, {}) ∧
    GrooveboxProject.loadFromFile (.content sboxTag 2 (some c5EmptyDoc)) "t" {}
      = (false, {}) ∧
    GrooveboxProject.loadFromFile (.content sboxTag 1 none) "t" {}
      = (false, {}) ∧
    (GrooveboxProject.loadFromFile (.content sboxTag 1 (some c5EmptyDoc))
      "t" {}).1 = true :=
  ⟨by decide, by decide, by decide, by decide,
   c5_load_failure_semantics.2.1 {} "t" [0, 0, 0, 0] 1 none (by decide),
   c5_load_failure_semantics.2.2.1 {} "t" sboxTag 2 (some c5EmptyDoc)
     (by decide),
   c5_load_failure_semantics.2.2.2.1 {} "t" 1,
   c5_load_failure_semantics.2.2.2.2.1 {} "t" 1 c5EmptyDoc (by decide)⟩

/-- C2: saveToFile followed by loadFromFile of the same bytes succeeds and
reproduces the project exactly as it was at save time (modifiedDate
already stamped): all pattern notes, bars, swing, mixer settings, patch
bytes via the hex encoding, tempo, loop bars, master volume, FX slots and
metadata compare equal.  The hypotheses are the data-model invariants of a
project state: the std::array/param sizes, note pitch in [0,127] and
velocity in [1,127], notes kept sorted by the pattern's own ordering, and
patch bytes below 256. -/
theorem c2_save_load_roundtrip (p q0 : GrooveboxProject) (now now2 : String)
    (hv : p.voices.length = NUM_VOICES)
    (hfx : p.globalFX.length = NUM_GLOBAL_FX)
    (hparams : ∀ s ∈ p.globalFX, s.params.length = FX_PARAMS_PER_SLOT)
    (hnotes : ∀ v ∈ p.voices, ∀ n ∈ v.pattern.notes,
      n.pitch ≤ 127 ∧ 1 ≤ n.velocity ∧ n.velocity ≤ 127)
    (hsorted : ∀ v ∈ p.voices, List.Sorted noteLE v.pattern.notes)
    (hpatch : ∀ v ∈ p.voices, ∀ b ∈ v.patchData, b < 256) :
    GrooveboxProject.loadFromFile
        (GrooveboxProject.saveToFile now p).2.toLoadInput now2 q0
      = (true, (GrooveboxProject.saveToFile now p).1) := by
  obtain ⟨ptempo, ploop, pswing, pmv, pvoices, pfx, pname, pauthor, pcomment,
    ptags, pcre, pmod⟩ := p
  obtain ⟨v0, v1, v2, v3, rfl⟩ := eq_list4 pvoices hv
  obtain ⟨s0, s1, s2, s3, rfl⟩ := eq_list4 pfx hfx
  have hsl0 := slot_fromXML_toXML s0 {} 0 (hparams s0 (by simp)) rfl
  have hsl1 := slot_fromXML_toXML s1 {} 1 (hparams s1 (by simp)) rfl
  have hsl2 := slot_fromXML_toXML s2 {} 2 (hparams s2 (by simp)) rfl
  have hsl3 := slot_fromXML_toXML s3 {} 3 (hparams s3 (by simp)) rfl
  have hvr0 := voice_fromXML_toXML v0 { name := "Voice 1", pattern := { bars := 4 } }
    0 (hnotes v0 (by simp)) (hsorted v0 (by simp)) (hpatch v0 (by simp)) rfl
  have hvr1 := voice_fromXML_toXML v1 { name := "Voice 2", pattern := { bars := 4 } }
    1 (hnotes v1 (by simp)) (hsorted v1 (by simp)) (hpatch v1 (by simp)) rfl
  have hvr2 := voice_fromXML_toXML v2 { name := "Voice 3", pattern := { bars := 4 } }
    2 (hnotes v2 (by simp)) (hsorted v2 (by simp)) (hpatch v2 (by simp)) rfl
  have hvr3 := voice_fromXML_toXML v3 { name := "Voice 4", pattern := { bars := 4 } }
    3 (hnotes v3 (by simp)) (hsorted v3 (by simp)) (hpatch v3 (by simp)) rfl
  by_cases hc : pcomment = "" <;> by_cases ht : ptags = [] <;>
    simp [GrooveboxProject.saveToFile, SBFile.toLoadInput,
      GrooveboxProject.loadFromFile, GrooveboxProject.toXML,
      GrooveboxProject.fromXML, GrooveboxProject.reset,
      XElem.firstChildElement, XElem.childrenNamed, XElem.name_mk,
      XElem.attrs_mk, XElem.text_mk, XElem.children_mk, voice_toXML_name,
      slot_toXML_name, voice_toXML_queryInt_index,
      slot_toXML_queryInt_index, XElem.attrString, XElem.queryInt,
      XElem.queryDouble, XElem.attr?, List.find?, List.filter, List.enum,
      List.enumFrom, List.getD, hsl0, hsl1, hsl2, hsl3, hvr0, hvr1, hvr2,
      hvr3, filterMap_text_tags, hc, ht, NUM_VOICES, NUM_GLOBAL_FX,
      PROJECT_FORMAT_VERSION, sboxTag]

/-- C2 witness: the round-trip applied to a concrete project exercising
notes, patch bytes, mixer settings, FX parameters, metadata and tags. -/
theorem c2_save_load_roundtrip_witness :
    (c2Project.voices.length = NUM_VOICES
      ∧ c2Project.globalFX.length = NUM_GLOBAL_FX
      ∧ (∀ s ∈ c2Project.globalFX, s.params.length = FX_PARAMS_PER_SLOT)
      ∧ (∀ v ∈ c2Project.voices, ∀ n ∈ v.pattern.notes,
          n.pitch ≤ 127 ∧ 1 ≤ n.velocity ∧ n.velocity ≤ 127)
      ∧ (∀ v ∈ c2Project.voices, List.Sorted noteLE v.pattern.notes)
      ∧ (∀ v ∈ c2Project.voices, ∀ b ∈ v.patchData, b < 256))
    ∧ GrooveboxProject.loadFromFile
        (GrooveboxProject.saveToFile "2025-01-01T00:00:00" c2Project).2.toLoadInput
        "2025-06-01T00:00:00" {}
      = (true, (GrooveboxProject.saveToFile "2025-01-01T00:00:00" c2Project).1) := by
  have h1 : c2Project.voices.length = NUM_VOICES := by simp [c2Project, NUM_VOICES]
  have h2 : c2Project.globalFX.length = NUM_GLOBAL_FX := by
    simp [c2Project, NUM_GLOBAL_FX]
  have h3 : ∀ s ∈ c2Project.globalFX, s.params.length = FX_PARAMS_PER_SLOT := by
    intro s hs
    simp [c2Project] at hs
    rcases hs with rfl | rfl | rfl | rfl <;> rfl
  have h4 : ∀ v ∈ c2Project.voices, ∀ n ∈ v.pattern.notes,
      n.pitch ≤ 127 ∧ 1 ≤ n.velocity ∧ n.velocity ≤ 127 := by
    intro v hv n hn
    simp [c2Project] at hv
    rcases hv with rfl | rfl | rfl | rfl <;> simp_all <;> omega
  have h5 : ∀ v ∈ c2Project.voices, List.Sorted noteLE v.pattern.notes := by
    intro v hv
    simp [c2Project] at hv
    rcases hv with rfl | rfl | rfl | rfl <;> simp
  have h6 : ∀ v ∈ c2Project.voices, ∀ b ∈ v.patchData, b < 256 := by
    intro v hv b hb
    simp [c2Project] at hv
    rcases hv with rfl | rfl | rfl | rfl <;> simp_all <;> omega
  exact ⟨⟨h1, h2, h3, h4, h5, h6⟩,
    c2_save_load_roundtrip c2Project {} "2025-01-01T00:00:00"
      "2025-06-01T00:00:00" h1 h2 h3 h4 h5 h6⟩

/-- C10 witness: a crafted note element with pitch 300 and velocity 0 and
a pattern element containing it, both yielding the clamped note. -/
theorem c10_fromxml_clamps_witness :
    MIDINote.fromXML c10NoteEl ∈
      (Pattern.fromXML (XElem.mk "pattern" [] none [c10NoteEl]) {}).notes ∧
    (MIDINote.fromXML c10NoteEl).pitch ≤ 127 ∧
    1 ≤ (MIDINote.fromXML c10NoteEl).velocity ∧
    (MIDINote.fromXML c10NoteEl).velocity ≤ 127 := by
  have hmem : MIDINote.fromXML c10NoteEl ∈
      (Pattern.fromXML (XElem.mk "pattern" [] none [c10NoteEl]) {}).notes := by
    norm_num [Pattern.fromXML, XElem.childrenNamed, XElem.children,
      XElem.name, List.insertionSort, List.orderedInsert]
  exact ⟨hmem, c10_fromxml_clamps.2.2 _ _ _ hmem⟩

end SurgeBox
